import Mathlib

/-!
Verification of the versioned model-artifact store of PredictorModel.Backend.

Shallow embedding of `backend/app/utils/complexities.py` (ComplexityMapper),
`backend/app/utils/version.py` (the module-level `label` function, the inner
`Path` key-derivation class and class `VersionManager`), the store-facing part
of `backend/app/routes/models.py` (`activate_models_batch`), and the metadata
construction of `backend/app/retrain/retrain.py` (`save_prophet_model`).

Modelling conventions:
* Python exceptions become the `PyError` inductive; a fallible call returns
  `Except PyError α`.  Exception *messages* are carried only for `ValueError`
  (where distinct raise sites matter to the claims); for the other exception
  classes the message text is elided.
* The storage backend is modelled as an association list from string keys to
  typed file contents (`Store μ`, with `μ` the type of deserialised model
  artifacts).  Each `VersionManager` method is embedded following its
  object-storage branch; the local-filesystem branch implements the same
  key/value contract (directory creation and byte-level serialisation are the
  only differences), and the `env` dispatch flag itself is therefore not
  modelled.  The store keeps keys unique and remembers insertion order; the
  claims proved below do not depend on enumeration order.
* Python dictionaries (the active-version registry, metadata documents) become
  association lists / structures holding exactly the fields the embedded code
  reads; the remaining free-form fields of a metadata document are abstracted
  into an opaque `payload` component.
* Python truthiness tests on optional strings (`if not version:`) become
  `falsyStr`.
-/

namespace PredictorModel

/-- Exception classes raised by the embedded Python code.  `valueError`
carries its message because several distinct `ValueError` raise sites are
distinguished by the claims; the other constructors elide message text. -/
inductive PyError where
  | valueError (msg : String)
  | fileNotFoundError
  | noSuchKey
  | attributeError
  | httpException (status : Nat)
  | otherError
deriving DecidableEq

/-- Python truthiness of an optional string: `None` and `""` are falsy. -/
def falsyStr : Option String → Bool
  | none => true
  | some s => s.isEmpty

/-- First-match association-list lookup, the evaluation of `d[k]` / `d.get(k)`
on a Python dict with unique keys. -/
def alookup {β : Type} : List (String × β) → String → Option β
  | [], _ => none
  | (k, v) :: rest, key => if key = k then some v else alookup rest key

/-- Python dict item assignment `d[k] = v` (also object-store `put`): replace
the entry in place when the key is present, otherwise append it. -/
def putKey {β : Type} : List (String × β) → String → β → List (String × β)
  | [], k, v => [(k, v)]
  | (k', v') :: rest, k, v =>
      if k = k' then (k, v) :: rest else (k', v') :: putKey rest k v

/-- Embedding of `str.startswith` (also the object-store list-by-prefix
filter), via the character sequences of the two strings. -/
def strStartsWith (s pre : String) : Bool :=
  pre.data.isPrefixOf s.data

/-- Embedding of `str.endswith`, via the character sequences. -/
def strEndsWith (s post : String) : Bool :=
  post.data.isSuffixOf s.data

/-! ## ComplexityMapper (`backend/app/utils/complexities.py`) -/

/-- The class attribute `ComplexityMapper._COMPLEXITY_MAP`: real name (with
tildes) to API label (without tildes). -/
def complexityMap : List (String × String) :=
  [("Baja", "Baja"),
   ("Media", "Media"),
   ("Alta", "Alta"),
   ("Neonatología", "Neonatologia"),
   ("Pediatría", "Pediatria"),
   ("Inte. Pediátrico", "IntePediatrico"),
   ("Maternidad", "Maternidad")]

/-- The class attribute `ComplexityMapper._REVERSE_MAP`, built by the dict
comprehension swapping the pairs of `_COMPLEXITY_MAP` (its values are pairwise
distinct, so the comprehension order is immaterial). -/
def reverseMap : List (String × String) :=
  complexityMap.map (fun p => (p.2, p.1))

/-- The message suffix listing valid options, as interpolated by the mapper's
error messages. -/
def validOptions (m : List (String × String)) : String :=
  String.intercalate ", " (m.map (fun p => p.1))

/-- `ComplexityMapper.to_label`: real name to API label, `ValueError` when the
name is not in the table. -/
def to_label (real_name : String) : Except PyError String :=
  match alookup complexityMap real_name with
  | some l => .ok l
  | none => .error (.valueError
      ("Invalid complexity: " ++ real_name ++ ". Valid options: " ++
        validOptions complexityMap))

/-- `ComplexityMapper.to_real_name`: API label to real name, `ValueError` when
the label is not in the reverse table. -/
def to_real_name (lbl : String) : Except PyError String :=
  match alookup reverseMap lbl with
  | some r => .ok r
  | none => .error (.valueError
      ("Invalid complexity label: " ++ lbl ++ ". Valid options: " ++
        validOptions reverseMap))

/-- `ComplexityMapper.get_all_labels`: the keys of `_REVERSE_MAP`. -/
def get_all_labels : List String :=
  reverseMap.map (fun p => p.1)

/-- `ComplexityMapper.get_all_real_names`: the keys of `_COMPLEXITY_MAP`. -/
def get_all_real_names : List String :=
  complexityMap.map (fun p => p.1)

/-- `ComplexityMapper.is_valid_label`: membership of the label in
`_REVERSE_MAP`; when the label is not a member the method raises
`HTTPException(status_code=422)` instead of returning, so `False` is never
returned. -/
def is_valid_label (lbl : String) : Except PyError Bool :=
  if (alookup reverseMap lbl).isSome then .ok true
  else .error (.httpException 422)

/-! ## Key derivation (`backend/app/utils/version.py`: `label` and `Path`) -/

/-- The module-level `label` function of `version.py`: `to_label`, with the
`ValueError` swallowed so an unregistered name is returned unchanged. -/
def label (complexity : String) : String :=
  match to_label complexity with
  | .ok l => l
  | .error _ => complexity

/-- The `Path.base_dir` class attribute. -/
def base_dir : String := "models"

/-- The `Path.complexity` property: raises `ValueError` when the stored
complexity is falsy. -/
def path_complexity (c : Option String) : Except PyError String :=
  if falsyStr c then .error (.valueError "Complexity not set")
  else .ok (c.getD "")

/-- The `Path.dir` property: the category directory, named by the `label` of
the complexity. -/
def path_dir (c : Option String) : Except PyError String :=
  match path_complexity c with
  | .error e => .error e
  | .ok cc => .ok (base_dir ++ "/" ++ label cc)

/-- The `Path.version_dir` property: raises `ValueError` when the stored
version is falsy, else the version subdirectory of `Path.dir`. -/
def path_version_dir (c v : Option String) : Except PyError String :=
  if falsyStr v then
    .error (.valueError "Version not set - cannot access version_dir")
  else
    match path_dir c with
    | .error e => .error e
    | .ok d => .ok (d ++ "/" ++ v.getD "")

/-- The `Path.model` property: the artifact key of a (category, version). -/
def path_model (c v : Option String) : Except PyError String :=
  match path_version_dir c v with
  | .error e => .error e
  | .ok vd => .ok (vd ++ "/model.pkl")

/-- The `Path.metadata` property: the metadata key of a (category, version). -/
def path_metadata (c v : Option String) : Except PyError String :=
  match path_version_dir c v with
  | .error e => .error e
  | .ok vd => .ok (vd ++ "/metadata.json")

/-- The `Path.base_model` property: the version-less fallback artifact key. -/
def path_base_model (c : Option String) : Except PyError String :=
  if falsyStr c then .error (.valueError "Complexity not set")
  else .ok (base_dir ++ "/" ++ label (c.getD "") ++ ".pkl")

/-- The `Path.active_versions_register` property: the registry key. -/
def active_versions_register : String :=
  base_dir ++ "/active_versions.json"

/-! ## Data model -/

/-- One metadata document, holding the fields the embedded code reads
(`metadata.get("version")`, `metadata.get("complexity")`); the remaining
free-form JSON fields (`n_samples`, `params`, `metrics`, ...) are abstracted
into `payload`. -/
structure MetaDoc where
  version : Option String
  complexity : Option String
  payload : Nat
deriving DecidableEq

/-- One entry of `active_versions.json`; the writing sites always populate all
three fields. -/
structure RegEntry where
  version : String
  activated_at : String
  activated_by : String
deriving DecidableEq

/-- The parsed registry document. -/
abbrev Registry := List (String × RegEntry)

/-- Typed content of one stored object: a serialised model artifact, a
metadata document, or the registry document. -/
inductive Obj (μ : Type) where
  | model (m : μ)
  | metaDoc (d : MetaDoc)
  | registryDoc (r : Registry)
deriving DecidableEq

/-- The storage backend: keys to typed contents, keys unique, insertion order
remembered. -/
abbrev Store (μ : Type) := List (String × Obj μ)

/-- Keys present in the store. -/
def storeKeys {μ : Type} (st : Store μ) : List String :=
  st.map (fun p => p.1)

/-! ## VersionManager operations (`backend/app/utils/version.py`) -/

/-- The `_active_versions` property: read and parse the registry document;
a missing key raises the backend's not-found error, content of the wrong
shape fails to parse. -/
def activeVersions {μ : Type} (st : Store μ) : Except PyError Registry :=
  match alookup st active_versions_register with
  | some (.registryDoc r) => .ok r
  | some _ => .error .otherError
  | none => .error .noSuchKey

/-- `_load_model_path`: read and deserialise the artifact at a key; a missing
key becomes `FileNotFoundError`, content that is not a serialised model fails
to deserialise. -/
def load_model_path {μ : Type} (st : Store μ) (p : String) : Except PyError μ :=
  match alookup st p with
  | some (.model m) => .ok m
  | some _ => .error .otherError
  | none => .error .fileNotFoundError

/-- `_load_model`: derive the artifact key of (complexity, version) and load
it. -/
def load_model {μ : Type} (st : Store μ) (c v : String) : Except PyError μ :=
  match path_model (some c) (some v) with
  | .error e => .error e
  | .ok p => load_model_path st p

/-- `get_base_model`: load the version-less fallback artifact of a
category. -/
def get_base_model {μ : Type} (st : Store μ) (c : String) : Except PyError μ :=
  match path_base_model (some c) with
  | .error e => .error e
  | .ok p => load_model_path st p

/-- The body of the metadata-collecting loop of `get_complexity_versions`:
read and parse each listed metadata key; any failure inside the loop is caught
by the surrounding handler (signalled here by `none`). -/
def readMetaDocs {μ : Type} (st : Store μ) : List String → Option (List MetaDoc)
  | [] => some []
  | k :: ks =>
      match alookup st k with
      | some (.metaDoc d) => (readMetaDocs st ks).map (fun l => d :: l)
      | _ => none

/-- `get_complexity_versions`: list the keys under the category directory
prefix; when none exist return `[]`; otherwise parse every listed key ending
in `metadata.json`, returning `[]` when the loop raises. -/
def get_complexity_versions {μ : Type} (st : Store μ) (c : String) :
    Except PyError (List MetaDoc) :=
  match path_dir (some c) with
  | .error e => .error e
  | .ok s3_key =>
      let contents := (storeKeys st).filter (fun k => strStartsWith k s3_key)
      if contents.isEmpty then .ok []
      else
        let metaKeys := contents.filter (fun k => strEndsWith k "metadata.json")
        .ok ((readMetaDocs st metaKeys).getD [])

/-- The sort key of `get_latest_version`: `x.get("version", "")`. -/
def metaKey (d : MetaDoc) : String := d.version.getD ""

/-- Ordering used by `sorted(versions, key=..., reverse=True)`: descending by
`metaKey`, stable. -/
def versionDescRel (a b : MetaDoc) : Prop := metaKey b ≤ metaKey a

instance : DecidableRel versionDescRel := fun a b =>
  inferInstanceAs (Decidable (metaKey b ≤ metaKey a))

instance : IsTotal MetaDoc versionDescRel :=
  ⟨fun a b => le_total (metaKey b) (metaKey a)⟩

instance : IsTrans MetaDoc versionDescRel :=
  ⟨fun _ _ _ hab hbc => le_trans hbc hab⟩

/-- `get_latest_version`: sort the category's metadata documents descending by
their `version` field and return the first one's `version`; `None` when the
category has no metadata documents. -/
def get_latest_version {μ : Type} (st : Store μ) (c : String) :
    Except PyError (Option String) :=
  match get_complexity_versions st c with
  | .error e => .error e
  | .ok versions =>
      if versions.isEmpty then .ok none
      else
        .ok (((versions.insertionSort versionDescRel).head?).bind
              (fun d => d.version))

/-- `get_active_version`: the registry pointer when it is non-falsy, otherwise
the latest version. -/
def get_active_version {μ : Type} (st : Store μ) (c : String) :
    Except PyError (Option String) :=
  match activeVersions st with
  | .error e => .error e
  | .ok reg =>
      let v : Option String := (alookup reg c).map (fun e => e.version)
      if falsyStr v then get_latest_version st c
      else .ok v

/-- `get_model`: resolve the version with `get_active_version`; a falsy
resolution falls back to the base model, otherwise load the resolved
version's artifact. -/
def get_model {μ : Type} (st : Store μ) (c : String) : Except PyError μ :=
  match get_active_version st c with
  | .error e => .error e
  | .ok v =>
      if falsyStr v then get_base_model st c
      else load_model st c (v.getD "")

/-- `save_model`: take version and complexity from the metadata document,
derive the artifact and metadata keys, and write artifact then metadata.
The first component of the result is the method's Python return value, which
is always `None` (the method returns nothing). -/
def save_model {μ : Type} (st : Store μ) (model : μ) (metadata : MetaDoc) :
    Except PyError (Option String × Store μ) :=
  match path_model metadata.complexity metadata.version with
  | .error e => .error e
  | .ok model_path =>
      match path_metadata metadata.complexity metadata.version with
      | .error e => .error e
      | .ok metadata_path =>
          let st1 := putKey st model_path (.model model)
          let st2 := putKey st1 metadata_path (.metaDoc metadata)
          .ok (none, st2)

/-- `set_active_version`: read the registry, overwrite one entry (with the
caller-visible timestamp `now`), write the whole document back. -/
def set_active_version {μ : Type} (st : Store μ) (c v user now : String) :
    Except PyError (Store μ) :=
  match activeVersions st with
  | .error e => .error e
  | .ok reg =>
      let reg' := putKey reg c ⟨v, now, user⟩
      .ok (putKey st active_versions_register (.registryDoc reg'))

/-- `set_active_versions_batch`: read the registry once, overwrite every entry
whose category is already a registry key (pairs with unknown categories are
silently skipped; no existence validation of the versions), write once. -/
def set_active_versions_batch {μ : Type} (st : Store μ)
    (versions_dict : List (String × String)) (user now : String) :
    Except PyError (Store μ) :=
  match activeVersions st with
  | .error e => .error e
  | .ok reg =>
      let reg' := versions_dict.foldl
        (fun r p =>
          if (alookup r p.1).isSome then putKey r p.1 ⟨p.2, now, user⟩ else r)
        reg
      .ok (putKey st active_versions_register (.registryDoc reg'))

/-- `get_version_metadata`: read and parse the metadata key of a
(category, version); every failure inside the handler yields `None`. -/
def get_version_metadata {μ : Type} (st : Store μ) (c v : String) :
    Except PyError (Option MetaDoc) :=
  match path_metadata (some c) (some v) with
  | .error e => .error e
  | .ok p =>
      match alookup st p with
      | some (.metaDoc d) => .ok (some d)
      | _ => .ok none

/-! ## The batch-activation route (`backend/app/routes/models.py`) -/

/-- The attribute names defined by class `VersionManager` and its base class
`StorageManager`, as written in `version.py` and `storage.py`. -/
def versionManagerAttrs : List String :=
  ["complexities", "base_dir", "filename", "path", "data",
   "save_model", "_load_model_path", "_load_model", "_create_version_manager",
   "_active_versions", "get_active_version_data", "get_base_model",
   "get_latest_version", "get_active_version", "get_model",
   "set_active_version", "set_active_versions_batch",
   "get_complexity_versions", "get_version_metadata", "get_versions",
   "get_active_versions", "get_feature_names",
   "storage_type", "base_path", "s3_bucket", "_s3_client", "s3_client",
   "save_csv", "load_csv", "exists", "save_multiple_csvs",
   "remove_week_from_file", "remove_last_row_from_file"]

/-- Python attribute resolution on the `version_manager` singleton. -/
def hasAttr (n : String) : Bool :=
  versionManagerAttrs.contains n

/-- The route's call `version_manager.get_version_metrics(complexity,
version)`: were an attribute of that name present it would be the
version-metadata lookup the comment announces, but the name is absent from
the class, so the attribute access raises `AttributeError`. -/
def call_get_version_metrics {μ : Type} (st : Store μ) (c v : String) :
    Except PyError (Option MetaDoc) :=
  if hasAttr "get_version_metrics" then get_version_metadata st c v
  else .error .attributeError

/-- The validation loop of `activate_models_batch` ("Verify all versions
exist"): a falsy lookup result raises `HTTPException(404)`. -/
def verify_versions_exist {μ : Type} (st : Store μ) :
    List (String × String) → Except PyError Unit
  | [] => .ok ()
  | (c, v) :: rest =>
      match call_get_version_metrics st c v with
      | .error e => .error e
      | .ok md =>
          if md.isSome then verify_versions_exist st rest
          else .error (.httpException 404)

/-- The route handler `activate_models_batch`: empty body is a 400, then the
validation loop, then the batch write.  An error result leaves the store
untouched (the handler raises before `set_active_versions_batch` runs). -/
def activate_models_batch {μ : Type} (st : Store μ)
    (versions_dict : List (String × String)) (user now : String) :
    Except PyError (Store μ) :=
  if versions_dict.isEmpty then .error (.httpException 400)
  else
    match verify_versions_exist st versions_dict with
    | .error e => .error e
    | .ok _ => set_active_versions_batch st versions_dict user now

/-! ## Retrain metadata (`backend/app/retrain/retrain.py`) -/

/-- The metadata dictionary built by `save_prophet_model`: it carries
`complexity`, `n_samples`, `params` and `metrics` (the latter three abstracted
into the payload) but no `version` key. -/
def retrainMetadata (complexity : String) (payload : Nat) : MetaDoc :=
  { version := none, complexity := some complexity, payload := payload }

/-! ## Derived key formulas and spec-side key scheme -/

/-- Flat form of the artifact key the code derives for a category and
version. -/
def modelKeyOf (c v : String) : String :=
  base_dir ++ "/" ++ label c ++ "/" ++ v ++ "/model.pkl"

/-- Flat form of the metadata key the code derives for a category and
version. -/
def metadataKeyOf (c v : String) : String :=
  base_dir ++ "/" ++ label c ++ "/" ++ v ++ "/metadata.json"

/-- Flat form of the base-artifact key the code derives for a category. -/
def baseModelKeyOf (c : String) : String :=
  base_dir ++ "/" ++ label c ++ ".pkl"

/-- The artifact key exactly as the spec publishes it (sections 4.3 and 6):
the canonical category name in the path and a `model.bin` file name.  Stated
from the spec's words, for comparison with the key the code derives. -/
def specArtifactKey (base c v : String) : String :=
  base ++ "/" ++ c ++ "/" ++ v ++ "/model.bin"

/-- The base-artifact key exactly as the spec publishes it: canonical name
with a `.bin` extension. -/
def specBaseArtifactKey (base c : String) : String :=
  base ++ "/" ++ c ++ ".bin"

/-- The metadata keys the code would enumerate for a category: keys under the
category directory prefix that end in `metadata.json`. -/
def metaKeysUnder {μ : Type} (st : Store μ) (c : String) : List String :=
  ((storeKeys st).filter
      (fun k => strStartsWith k (base_dir ++ "/" ++ label c))).filter
    (fun k => strEndsWith k "metadata.json")

/-! ## Concrete stores used by the witnesses and counterexamples -/

/-- A registry document whose only entry, for `Alta`, has an empty (falsy)
version pointer. -/
def regEmptyAlta : Registry :=
  [("Alta", { version := "", activated_at := "", activated_by := "" })]

/-- Metadata document of the older of two saved `Alta` versions. -/
def wMeta1 : MetaDoc :=
  { version := some "v_2024-11-26_18-30-00", complexity := some "Alta",
    payload := 1 }

/-- Metadata document of the newer of two saved `Alta` versions. -/
def wMeta2 : MetaDoc :=
  { version := some "v_2024-11-27_10-15-00", complexity := some "Alta",
    payload := 2 }

/-- A store with an unset `Alta` pointer and two saved `Alta` versions. -/
def wStore : Store Nat :=
  [(active_versions_register, .registryDoc regEmptyAlta),
   ("models/Alta/v_2024-11-26_18-30-00/model.pkl", .model 7),
   ("models/Alta/v_2024-11-26_18-30-00/metadata.json", .metaDoc wMeta1),
   ("models/Alta/v_2024-11-27_10-15-00/model.pkl", .model 8),
   ("models/Alta/v_2024-11-27_10-15-00/metadata.json", .metaDoc wMeta2)]

/-- A store whose registry pins `Alta` to a version that has no stored
artifact, and which holds no base artifact either. -/
def pinnedDanglingStore : Store Nat :=
  [(active_versions_register,
    .registryDoc [("Alta", { version := "v_x", activated_at := "2025-01-01",
                             activated_by := "admin" })])]

/-- A store with an unset `Alta` pointer, no versions, and a base artifact. -/
def baseOnlyStore : Store Nat :=
  [(active_versions_register, .registryDoc regEmptyAlta),
   ("models/Alta.pkl", .model 5)]

/-- A store holding only the registry document, with an unset `Alta`
pointer. -/
def regOnlyStore : Store Nat :=
  [(active_versions_register, .registryDoc regEmptyAlta)]

/-- A store with one complete `Alta` version and one orphan artifact (a
version directory holding a model file but no metadata document). -/
def orphanStore : Store Nat :=
  [(active_versions_register, .registryDoc regEmptyAlta),
   ("models/Alta/v_2024-11-26_18-30-00/model.pkl", .model 7),
   ("models/Alta/v_2024-11-26_18-30-00/metadata.json", .metaDoc wMeta1),
   ("models/Alta/v_2024-12-01_09-00-00/model.pkl", .model 9)]

/-! ## Lemmas about the embedding primitives -/

theorem alookup_eq_none_iff {β : Type} (st : List (String × β)) (k : String) :
    alookup st k = none ↔ ∀ p ∈ st, p.1 ≠ k := by
  induction st with
  | nil => simp [alookup]
  | cons p rest ih =>
    obtain ⟨k', v'⟩ := p
    by_cases hk : k = k'
    · subst hk; simp [alookup]
    · simp [alookup, hk, ih, Ne.symm hk]

theorem alookup_append_of_some {β : Type} {st : List (String × β)} {k : String}
    {v : β} (ts : List (String × β)) (h : alookup st k = some v) :
    alookup (st ++ ts) k = some v := by
  induction st with
  | nil => simp [alookup] at h
  | cons p rest ih =>
    obtain ⟨k', v'⟩ := p
    by_cases hk : k = k'
    · simp [alookup, hk] at h ⊢; exact h
    · simp [alookup, hk] at h ⊢; exact ih h

theorem alookup_append_of_none {β : Type} {st : List (String × β)} {k : String}
    (ts : List (String × β)) (h : alookup st k = none) :
    alookup (st ++ ts) k = alookup ts k := by
  induction st with
  | nil => simp
  | cons p rest ih =>
    obtain ⟨k', v'⟩ := p
    by_cases hk : k = k'
    · simp [alookup, hk] at h
    · simp [alookup, hk] at h ⊢; exact ih h

theorem putKey_eq_append {β : Type} {st : List (String × β)} {k : String}
    (h : alookup st k = none) (v : β) : putKey st k v = st ++ [(k, v)] := by
  induction st with
  | nil => simp [putKey]
  | cons p rest ih =>
    obtain ⟨k', v'⟩ := p
    by_cases hk : k = k'
    · simp [alookup, hk] at h
    · simp [alookup, hk] at h; simp [putKey, hk, ih h]

theorem falsyStr_some_eq_false {s : String} (h : s ≠ "") :
    falsyStr (some s) = false := by
  simp only [falsyStr]
  exact Bool.eq_false_iff.mpr (fun hh => h ((String.isEmpty_iff s).mp hh))

theorem strStartsWith_of_data {s p : String} {t : List Char}
    (h : s.data = p.data ++ t) : strStartsWith s p = true := by
  simp only [strStartsWith, h, List.isPrefixOf_iff_prefix]
  exact List.prefix_append _ _

theorem strEndsWith_of_data {s post : String} {t : List Char}
    (h : s.data = t ++ post.data) : strEndsWith s post = true := by
  simp only [strEndsWith, h, List.isSuffixOf_iff_suffix]
  exact List.suffix_append _ _

theorem strEndsWith_metadata_of_model_pkl {s : String} {t : List Char}
    (h : s.data = t ++ "/model.pkl".data) :
    strEndsWith s "metadata.json" = false := by
  simp only [strEndsWith, h]
  rw [Bool.eq_false_iff]
  intro hsuf
  rw [List.isSuffixOf_iff_suffix] at hsuf
  rw [← List.reverse_prefix, List.reverse_append] at hsuf
  have e1 : ("metadata.json".data).reverse =
      ['n', 'o', 's', 'j', '.', 'a', 't', 'a', 'd', 'a', 't', 'e', 'm'] := rfl
  have e2 : ("/model.pkl".data).reverse =
      ['l', 'k', 'p', '.', 'l', 'e', 'd', 'o', 'm', '/'] := rfl
  rw [e1, e2, List.cons_append] at hsuf
  have := (List.cons_prefix_cons.mp hsuf).1
  simp at this

theorem ne_of_data_length {s t : String}
    (h : s.data.length ≠ t.data.length) : s ≠ t := by
  intro he; exact h (by rw [he])

theorem modelKey_startsWith_dir (c v : String) :
    strStartsWith (modelKeyOf c v) (base_dir ++ "/" ++ label c) = true := by
  apply strStartsWith_of_data
    (t := "/".data ++ (v.data ++ "/model.pkl".data))
  simp [modelKeyOf, List.append_assoc]

theorem metadataKey_startsWith_dir (c v : String) :
    strStartsWith (metadataKeyOf c v) (base_dir ++ "/" ++ label c) = true := by
  apply strStartsWith_of_data
    (t := "/".data ++ (v.data ++ "/metadata.json".data))
  simp [metadataKeyOf, List.append_assoc]

theorem metadataKey_endsWith_metadata (c v : String) :
    strEndsWith (metadataKeyOf c v) "metadata.json" = true := by
  apply strEndsWith_of_data
    (t := (base_dir ++ "/" ++ label c ++ "/" ++ v).data ++ ['/'])
  simp [metadataKeyOf, List.append_assoc]

theorem modelKey_not_endsWith_metadata (c v : String) :
    strEndsWith (modelKeyOf c v) "metadata.json" = false := by
  apply strEndsWith_metadata_of_model_pkl
    (t := (base_dir ++ "/" ++ label c ++ "/" ++ v).data)
  simp [modelKeyOf]

theorem metadataKey_ne_modelKey (c v : String) :
    metadataKeyOf c v ≠ modelKeyOf c v := by
  apply ne_of_data_length
  simp [metadataKeyOf, modelKeyOf]

theorem path_dir_eq {c : String} (hc : c ≠ "") :
    path_dir (some c) = .ok (base_dir ++ "/" ++ label c) := by
  simp only [path_dir, path_complexity, falsyStr_some_eq_false hc]
  rfl

theorem path_model_eq {c v : String} (hc : c ≠ "") (hv : v ≠ "") :
    path_model (some c) (some v) = .ok (modelKeyOf c v) := by
  simp only [path_model, path_version_dir, falsyStr_some_eq_false hv,
    path_dir_eq hc]
  rfl

theorem path_metadata_eq {c v : String} (hc : c ≠ "") (hv : v ≠ "") :
    path_metadata (some c) (some v) = .ok (metadataKeyOf c v) := by
  simp only [path_metadata, path_version_dir, falsyStr_some_eq_false hv,
    path_dir_eq hc]
  rfl

theorem path_base_model_eq {c : String} (hc : c ≠ "") :
    path_base_model (some c) = .ok (baseModelKeyOf c) := by
  simp only [path_base_model, falsyStr_some_eq_false hc]
  rfl

theorem insertionSort_head_max (l : List MetaDoc) (hne : l ≠ []) :
    ∃ m, (l.insertionSort versionDescRel).head? = some m ∧ m ∈ l ∧
      ∀ d ∈ l, metaKey d ≤ metaKey m := by
  have hperm := List.perm_insertionSort versionDescRel l
  have hsorted := List.sorted_insertionSort versionDescRel l
  cases hs : l.insertionSort versionDescRel with
  | nil =>
    exfalso
    have hl := hperm.length_eq
    rw [hs] at hl
    exact hne (List.length_eq_zero.mp hl.symm)
  | cons m t =>
    refine ⟨m, by simp, ?_, ?_⟩
    · exact hperm.subset (by rw [hs]; exact List.mem_cons_self m t)
    · intro d hd
      have hd' : d ∈ m :: t := by rw [← hs]; exact hperm.symm.subset hd
      rcases List.mem_cons.mp hd' with h | h
      · subst h; exact le_refl _
      · rw [hs] at hsorted
        exact List.rel_of_sorted_cons hsorted d h

theorem alookup_isSome_of_mem_keys {β : Type} {l : List (String × β)}
    {k : String} (h : k ∈ l.map (fun p => p.1)) :
    (alookup l k).isSome = true := by
  induction l with
  | nil => simp at h
  | cons p rest ih =>
    obtain ⟨k', v'⟩ := p
    by_cases hk : k = k'
    · simp [alookup, hk]
    · simp only [List.map_cons, List.mem_cons] at h
      rcases h with h | h
      · exact absurd h hk
      · simp [alookup, hk, ih h]

theorem falsyStr_false_iff {o : Option String} :
    falsyStr o = false ↔ ∃ s, o = some s ∧ s ≠ "" := by
  cases o with
  | none =>
    constructor
    · intro h; exact absurd h (by simp [falsyStr])
    · rintro ⟨s, hs, -⟩; exact absurd hs (by simp)
  | some s =>
    constructor
    · intro h
      refine ⟨s, rfl, fun hs => ?_⟩
      rw [hs] at h
      exact absurd h (by decide)
    · rintro ⟨t, ht, hne⟩
      obtain rfl : s = t := by injection ht
      exact falsyStr_some_eq_false hne

theorem activeVersions_error_shape {μ : Type} {st : Store μ} {e : PyError}
    (h : activeVersions st = .error e) :
    e = .noSuchKey ∨ e = .otherError := by
  cases halk : alookup st active_versions_register with
  | none =>
    simp only [activeVersions, halk, Except.error.injEq] at h
    exact Or.inl h.symm
  | some o =>
    cases o with
    | registryDoc r =>
      simp only [activeVersions, halk] at h
      exact Except.noConfusion h
    | model m =>
      simp only [activeVersions, halk, Except.error.injEq] at h
      exact Or.inr h.symm
    | metaDoc d =>
      simp only [activeVersions, halk, Except.error.injEq] at h
      exact Or.inr h.symm

theorem load_model_path_not_valueError {μ : Type} (st : Store μ) (p : String)
    (msg : String) : load_model_path st p ≠ .error (.valueError msg) := by
  cases halk : alookup st p with
  | none => simp [load_model_path, halk]
  | some o => cases o <;> simp [load_model_path, halk]

theorem get_complexity_versions_ok {μ : Type} (st : Store μ) {c : String}
    (hc : c ≠ "") : ∃ l, get_complexity_versions st c = .ok l := by
  simp only [get_complexity_versions, path_dir_eq hc]
  split
  · exact ⟨[], rfl⟩
  · exact ⟨_, rfl⟩

theorem get_latest_version_ok {μ : Type} (st : Store μ) {c : String}
    (hc : c ≠ "") : ∃ o, get_latest_version st c = .ok o := by
  obtain ⟨l, hl⟩ := get_complexity_versions_ok st hc
  simp only [get_latest_version, hl]
  split
  · exact ⟨none, rfl⟩
  · exact ⟨_, rfl⟩

theorem get_active_version_error_shape {st : Store Nat} {c : String}
    {e : PyError} (hc : c ≠ "")
    (h : get_active_version st c = .error e) :
    e = .noSuchKey ∨ e = .otherError := by
  cases hav : activeVersions st with
  | error e' =>
    simp only [get_active_version, hav, Except.error.injEq] at h
    exact h ▸ activeVersions_error_shape hav
  | ok reg =>
    simp only [get_active_version, hav] at h
    obtain ⟨o, ho⟩ := get_latest_version_ok st hc (μ := Nat)
    by_cases hf : falsyStr ((alookup reg c).map (fun e => e.version)) = true
    · rw [if_pos hf, ho] at h
      exact absurd h (by simp)
    · rw [if_neg hf] at h
      exact absurd h (by simp)

theorem readMetaDocs_of_wf {μ : Type} (st : Store μ) :
    ∀ ks : List String,
      (∀ k ∈ ks, ∃ d, alookup st k = some (.metaDoc d)) →
      ∃ l, readMetaDocs st ks = some l ∧
        List.Forall₂ (fun k d => alookup st k = some (Obj.metaDoc d)) ks l := by
  intro ks
  induction ks with
  | nil => exact fun _ => ⟨[], rfl, List.Forall₂.nil⟩
  | cons k ks ih =>
    intro h
    obtain ⟨d, hd⟩ := h k (List.mem_cons_self _ _)
    obtain ⟨l, hl, hrel⟩ := ih (fun k' hk' => h k' (List.mem_cons_of_mem _ hk'))
    exact ⟨d :: l, by simp [readMetaDocs, hd, hl], List.Forall₂.cons hd hrel⟩

/-! ## Claim theorems -/

/-- Claim C1: for every category, the version resolution of
`get_active_version` is evaluated in order — a non-empty registry pointer is
returned as-is; otherwise the maximum version by string ordering among the
category's listed versions; otherwise `None`. -/
theorem get_active_version_resolution
    (st : Store Nat) (c : String) (reg : Registry)
    (hreg : activeVersions st = .ok reg) :
    (∀ e : RegEntry, alookup reg c = some e → e.version ≠ "" →
        get_active_version st c = .ok (some e.version)) ∧
    (falsyStr ((alookup reg c).map (fun e => e.version)) = true →
      ∀ l : List MetaDoc, get_complexity_versions st c = .ok l →
        ((l = [] → get_active_version st c = .ok none) ∧
         (l ≠ [] → (∀ m ∈ l, (m.version).isSome = true) →
           ∃ v : String, get_active_version st c = .ok (some v) ∧
             (∃ m ∈ l, m.version = some v) ∧
             ∀ m ∈ l, metaKey m ≤ v))) := by
  constructor
  · intro e he hv
    simp only [get_active_version, hreg, he, Option.map_some',
      falsyStr_some_eq_false hv]
    rfl
  · intro hfal l hl
    have hb : get_active_version st c = get_latest_version st c := by
      simp only [get_active_version, hreg, hfal, if_true]
    constructor
    · intro hnil
      subst hnil
      rw [hb]
      simp only [get_latest_version, hl, List.isEmpty_nil, if_true]
    · intro hne hall
      obtain ⟨m, hhead, hmem, hmax⟩ := insertionSort_head_max l hne
      obtain ⟨v, hv⟩ := Option.isSome_iff_exists.mp (hall m hmem)
      refine ⟨v, ?_, ⟨m, hmem, hv⟩, ?_⟩
      · rw [hb]
        simp only [get_latest_version, hl]
        rw [if_neg (by simp [List.isEmpty_iff, hne])]
        rw [hhead]
        simp [hv]
      · intro d hd
        have := hmax d hd
        simpa [metaKey, hv] using this

/-- Witness for C1: on a concrete store with an unset `Alta` pointer and two
saved versions, resolution returns the maximum listed version. -/
theorem get_active_version_resolution_witness :
    ∃ v : String, get_active_version wStore "Alta" = .ok (some v) ∧
      (∃ m ∈ [wMeta1, wMeta2], m.version = some v) ∧
      ∀ m ∈ [wMeta1, wMeta2], metaKey m ≤ v :=
  (((get_active_version_resolution wStore "Alta" regEmptyAlta rfl).2
      rfl [wMeta1, wMeta2] rfl).2) (by decide) (by decide)

/-- Counterexample to claim C2 as stated: in `pinnedDanglingStore` a version
resolves (the explicit pointer `v_x`), yet `get_model` still raises the
not-found error, because the pinned version has no stored artifact; so
`get_model` does not raise *only* in the no-version-no-base case. -/
theorem get_model_iff_counterexample :
    get_active_version pinnedDanglingStore "Alta" = .ok (some "v_x") ∧
    get_model pinnedDanglingStore "Alta" = .error .fileNotFoundError :=
  ⟨rfl, rfl⟩

/-- Claim C2 as amended: `get_model` first resolves a version; a non-falsy
resolution is loaded (and loading itself raises the not-found error when that
artifact is absent); a falsy resolution falls back to the base artifact,
returning it when present and raising the not-found error when absent. -/
theorem get_model_fallback (st : Store Nat) (c : String) (hc : c ≠ "") :
    (∀ v : String, get_active_version st c = .ok (some v) → v ≠ "" →
        get_model st c = load_model st c v) ∧
    ((get_active_version st c = .ok none ∨
      get_active_version st c = .ok (some "")) →
        ((alookup st (baseModelKeyOf c) = none →
            get_model st c = .error .fileNotFoundError) ∧
         (∀ b : Nat, alookup st (baseModelKeyOf c) = some (.model b) →
            get_model st c = .ok b))) := by
  constructor
  · intro v h hv
    simp only [get_model, h, falsyStr_some_eq_false hv]
    rfl
  · intro h
    have hbase : get_model st c = load_model_path st (baseModelKeyOf c) := by
      rcases h with h | h
      · simp only [get_model, h]
        rw [if_pos (show falsyStr none = true from rfl)]
        simp only [get_base_model, path_base_model_eq hc]
      · simp only [get_model, h]
        rw [if_pos (show falsyStr (some "") = true from rfl)]
        simp only [get_base_model, path_base_model_eq hc]
    refine ⟨?_, ?_⟩
    · intro hnone
      rw [hbase]
      simp only [load_model_path, hnone]
    · intro b hsome
      rw [hbase]
      simp only [load_model_path, hsome]

/-- Witness for the amended C2: with zero versions and a base artifact
present, `get_model` returns the base artifact. -/
theorem get_model_fallback_witness : get_model baseOnlyStore "Alta" = .ok 5 :=
  ((get_model_fallback baseOnlyStore "Alta" (by decide)).2 (Or.inl rfl)).2 5 rfl

/-- Claim C3: round-trip — saving artifact `b` with a metadata document that
names category `c` and a version `v` (per section 6 of the spec a metadata
document always carries its category and version), on a store with no other
objects under the category prefix and no active pointer set for `c`, makes
the immediately following `get_model c` return exactly `b`. -/
theorem save_then_get_model_roundtrip
    (st : Store Nat) (c v : String) (b : Nat) (md : MetaDoc) (reg : Registry)
    (hc : c ≠ "") (hv : v ≠ "")
    (hmdc : md.complexity = some c) (hmdv : md.version = some v)
    (hreg : alookup st active_versions_register = some (.registryDoc reg))
    (hnopin : falsyStr ((alookup reg c).map (fun e => e.version)) = true)
    (hclean : ∀ k ∈ storeKeys st,
        strStartsWith k (base_dir ++ "/" ++ label c) = false) :
    ∃ st' : Store Nat, save_model st b md = .ok (none, st') ∧
      get_model st' c = .ok b := by
  have hmkst : alookup st (modelKeyOf c v) = none := by
    rw [alookup_eq_none_iff]
    intro p hp heq
    have hfalse := hclean p.1 (List.mem_map_of_mem Prod.fst hp)
    rw [heq, modelKey_startsWith_dir] at hfalse
    simp at hfalse
  have hmtkst : alookup st (metadataKeyOf c v) = none := by
    rw [alookup_eq_none_iff]
    intro p hp heq
    have hfalse := hclean p.1 (List.mem_map_of_mem Prod.fst hp)
    rw [heq, metadataKey_startsWith_dir] at hfalse
    simp at hfalse
  have hput1 : putKey st (modelKeyOf c v) (Obj.model b) =
      st ++ [(modelKeyOf c v, Obj.model b)] := putKey_eq_append hmkst _
  have hmtk1 : alookup (st ++ [(modelKeyOf c v, Obj.model b)])
      (metadataKeyOf c v) = none := by
    rw [alookup_append_of_none _ hmtkst]
    simp [alookup, metadataKey_ne_modelKey c v]
  have hput2 : putKey (st ++ [(modelKeyOf c v, Obj.model b)])
      (metadataKeyOf c v) (Obj.metaDoc md) =
      st ++ [(modelKeyOf c v, Obj.model b),
             (metadataKeyOf c v, Obj.metaDoc md)] := by
    rw [putKey_eq_append hmtk1]
    simp
  have hsave : save_model st b md = .ok (none,
      st ++ [(modelKeyOf c v, Obj.model b),
             (metadataKeyOf c v, Obj.metaDoc md)]) := by
    simp only [save_model, hmdc, hmdv, path_model_eq hc hv,
      path_metadata_eq hc hv]
    rw [hput1, hput2]
  refine ⟨_, hsave, ?_⟩
  have hamk : alookup (st ++ [(modelKeyOf c v, Obj.model b),
      (metadataKeyOf c v, Obj.metaDoc md)]) (modelKeyOf c v) =
      some (Obj.model b) := by
    rw [alookup_append_of_none _ hmkst]
    simp [alookup]
  have hamtk : alookup (st ++ [(modelKeyOf c v, Obj.model b),
      (metadataKeyOf c v, Obj.metaDoc md)]) (metadataKeyOf c v) =
      some (Obj.metaDoc md) := by
    rw [alookup_append_of_none _ hmtkst]
    simp [alookup, metadataKey_ne_modelKey c v]
  have hreg2 : activeVersions (st ++ [(modelKeyOf c v, Obj.model b),
      (metadataKeyOf c v, Obj.metaDoc md)]) = .ok reg := by
    simp only [activeVersions, alookup_append_of_some _ hreg]
  have hkeys : storeKeys (st ++ [(modelKeyOf c v, Obj.model b),
      (metadataKeyOf c v, Obj.metaDoc md)]) =
      storeKeys st ++ [modelKeyOf c v, metadataKeyOf c v] := by
    simp [storeKeys]
  have hlist : get_complexity_versions (st ++ [(modelKeyOf c v, Obj.model b),
      (metadataKeyOf c v, Obj.metaDoc md)]) c = .ok [md] := by
    simp only [get_complexity_versions, path_dir_eq hc]
    have hcontents : (storeKeys (st ++ [(modelKeyOf c v, Obj.model b),
        (metadataKeyOf c v, Obj.metaDoc md)])).filter
        (fun k => strStartsWith k (base_dir ++ "/" ++ label c)) =
        [modelKeyOf c v, metadataKeyOf c v] := by
      rw [hkeys, List.filter_append]
      rw [List.filter_eq_nil_iff.mpr (fun a ha => by simp [hclean a ha])]
      simp [List.filter, modelKey_startsWith_dir, metadataKey_startsWith_dir]
    rw [hcontents]
    simp [List.filter, modelKey_not_endsWith_metadata,
      metadataKey_endsWith_metadata, readMetaDocs, hamtk]
  have hlat : get_latest_version (st ++ [(modelKeyOf c v, Obj.model b),
      (metadataKeyOf c v, Obj.metaDoc md)]) c = .ok (some v) := by
    simp only [get_latest_version, hlist]
    simp [hmdv]
  have hact : get_active_version (st ++ [(modelKeyOf c v, Obj.model b),
      (metadataKeyOf c v, Obj.metaDoc md)]) c = .ok (some v) := by
    simp only [get_active_version, hreg2, hnopin, if_true, hlat]
  simp only [get_model, hact, falsyStr_some_eq_false hv]
  simp only [Bool.false_eq_true, if_false, Option.getD_some]
  simp only [load_model, path_model_eq hc hv, load_model_path, hamk]

/-- Witness for C3: a concrete save on a store holding only the registry,
followed by `get_model`, returns the saved artifact. -/
theorem save_then_get_model_roundtrip_witness :
    ∃ st' : Store Nat,
      save_model regOnlyStore 9
        { version := some "v_2025-01-01_00-00-00", complexity := some "Alta",
          payload := 3 } = .ok (none, st') ∧
      get_model st' "Alta" = .ok 9 :=
  save_then_get_model_roundtrip regOnlyStore "Alta" "v_2025-01-01_00-00-00" 9
    { version := some "v_2025-01-01_00-00-00", complexity := some "Alta",
      payload := 3 }
    regEmptyAlta (by decide) (by decide) rfl rfl rfl rfl (by decide)

/-- Claim C4 (code bug): `save_model` does not derive a version identifier at
all — it reads one from the metadata dictionary, and the metadata built by its
only caller `save_prophet_model` has no `version` key, so the save raises
`ValueError` instead of writing and returning a fresh
`v_`-timestamp version. -/
theorem save_model_retrain_metadata_raises (st : Store Nat) (b : Nat)
    (c : String) (p : Nat) :
    save_model st b (retrainMetadata c p) =
      .error (.valueError "Version not set - cannot access version_dir") := rfl

/-- Claim C5 (code bug): the batch-activation route calls the nonexistent
method `get_version_metrics` (the class only defines `get_version_metadata`),
so every non-empty batch — including one whose pairs are all valid — raises
`AttributeError` before the registry write is reached; the announced
validation never runs, and a successful batch activation is impossible. -/
theorem activate_models_batch_attribute_error (st : Store Nat)
    (d : List (String × String)) (user now : String) (hd : d ≠ []) :
    activate_models_batch st d user now = .error .attributeError := by
  have hattr : hasAttr "get_version_metrics" = false := by decide
  cases d with
  | nil => exact absurd rfl hd
  | cons p rest =>
    obtain ⟨cc, vv⟩ := p
    simp [activate_models_batch, verify_versions_exist,
      call_get_version_metrics, hattr]

/-- Witness for C5: a batch whose single pair names a version that does exist
in the store still fails with the attribute error. -/
theorem activate_models_batch_attribute_error_witness :
    activate_models_batch wStore [("Alta", "v_2024-11-26_18-30-00")]
      "admin" "2025-01-01T00:00:00" = .error .attributeError :=
  activate_models_batch_attribute_error wStore
    [("Alta", "v_2024-11-26_18-30-00")] "admin" "2025-01-01T00:00:00"
    (by decide)

/-- Counterexample to claim C6 as stated: for the category `Neonatología` the
code derives keys from the API label (`Neonatologia`) with a `.pkl` extension,
not from the canonical name with the published `.bin` extension. -/
theorem path_scheme_counterexample :
    path_model (some "Neonatología") (some "v1") =
      .ok "models/Neonatologia/v1/model.pkl" ∧
    "models/Neonatologia/v1/model.pkl" ≠
      specArtifactKey "models" "Neonatología" "v1" ∧
    path_base_model (some "Neonatología") = .ok "models/Neonatologia.pkl" ∧
    "models/Neonatologia.pkl" ≠ specBaseArtifactKey "models" "Neonatología" :=
  ⟨rfl, by decide, rfl, by decide⟩

/-- Claim C6 as amended: the derived keys are
`models/{api_label}/{version}/model.pkl`,
`models/{api_label}/{version}/metadata.json`, `models/{api_label}.pkl` and
`models/active_versions.json`, where the path component is the category's API
label from the mapping table (the category string itself when unregistered),
and the artifact extension is `.pkl`. -/
theorem path_scheme_amended (c v : String) (hc : c ≠ "") (hv : v ≠ "") :
    path_model (some c) (some v) = .ok (modelKeyOf c v) ∧
    path_metadata (some c) (some v) = .ok (metadataKeyOf c v) ∧
    path_base_model (some c) = .ok (baseModelKeyOf c) ∧
    active_versions_register = "models/active_versions.json" ∧
    (∀ p ∈ complexityMap, label p.1 = p.2) :=
  ⟨path_model_eq hc hv, path_metadata_eq hc hv, path_base_model_eq hc,
   by decide, by decide⟩

/-- Witness for the amended C6, at the category with a non-identity label. -/
theorem path_scheme_amended_witness :
    path_model (some "Neonatología") (some "v1") =
      .ok (modelKeyOf "Neonatología" "v1") ∧
    path_metadata (some "Neonatología") (some "v1") =
      .ok (metadataKeyOf "Neonatología" "v1") ∧
    path_base_model (some "Neonatología") =
      .ok (baseModelKeyOf "Neonatología") ∧
    active_versions_register = "models/active_versions.json" ∧
    (∀ p ∈ complexityMap, label p.1 = p.2) :=
  path_scheme_amended "Neonatología" "v1" (by decide) (by decide)

/-- Counterexample to claim C7 as stated: `is_valid_label("baja")` neither
returns a boolean nor matches case-insensitively — it raises
`HTTPException(422)`, although `Baja` is a registered label. -/
theorem is_valid_label_counterexample :
    is_valid_label "baja" = .error (.httpException 422) := rfl

/-- Claim C7 as amended: `is_valid_label` returns `True` when the input
exactly (case-sensitively) matches a registered API label and raises
`HTTPException(422)` otherwise; it never returns `False`. -/
theorem is_valid_label_exact_or_raise (s : String) :
    (s ∈ get_all_labels → is_valid_label s = .ok true) ∧
    (s ∉ get_all_labels → is_valid_label s = .error (.httpException 422)) := by
  constructor
  · intro hmem
    have hs : (alookup reverseMap s).isSome = true :=
      alookup_isSome_of_mem_keys hmem
    simp [is_valid_label, hs]
  · intro hnmem
    have hs : alookup reverseMap s = none := by
      rw [alookup_eq_none_iff]
      intro p hp heq
      exact hnmem (heq ▸ List.mem_map_of_mem (fun p => p.1) hp)
    simp [is_valid_label, hs]

/-- Witness for the amended C7: an exact label returns `True`; an unknown
label raises the 422 error. -/
theorem is_valid_label_exact_or_raise_witness :
    is_valid_label "Baja" = .ok true ∧
    is_valid_label "zzz" = .error (.httpException 422) :=
  ⟨(is_valid_label_exact_or_raise "Baja").1 (by decide),
   (is_valid_label_exact_or_raise "zzz").2 (by decide)⟩

/-- Claim C8: label bijection — every registered canonical name maps to its
API label and back to itself, and `to_label` on an unregistered name raises
`ValueError`. -/
theorem label_bijection_roundtrip :
    (∀ c ∈ get_all_real_names,
        ∃ l, to_label c = .ok l ∧ to_real_name l = .ok c) ∧
    (∀ s, s ∉ get_all_real_names →
        ∃ msg, to_label s = .error (.valueError msg)) := by
  constructor
  · intro c hc
    have hlist : get_all_real_names =
        ["Baja", "Media", "Alta", "Neonatología", "Pediatría",
         "Inte. Pediátrico", "Maternidad"] := rfl
    rw [hlist] at hc
    fin_cases hc <;> exact ⟨_, rfl, rfl⟩
  · intro s hs
    have hnone : alookup complexityMap s = none := by
      rw [alookup_eq_none_iff]
      intro p hp heq
      exact hs (heq ▸ List.mem_map_of_mem (fun p => p.1) hp)
    exact ⟨"Invalid complexity: " ++ s ++ ". Valid options: " ++
      validOptions complexityMap, by simp [to_label, hnone]⟩

/-- Witness for C8: the round trip at the accented canonical name, and the
error at an unregistered name. -/
theorem label_bijection_roundtrip_witness :
    (∃ l, to_label "Neonatología" = .ok l ∧
      to_real_name l = .ok "Neonatología") ∧
    (∃ msg, to_label "Foo" = .error (.valueError msg)) :=
  ⟨label_bijection_roundtrip.1 "Neonatología" (by decide),
   label_bijection_roundtrip.2 "Foo" (by decide)⟩

/-- Claim C9: `get_complexity_versions` enumerates exactly the metadata
documents at the keys under the category prefix that end in `metadata.json`
(pairwise, in order), and it raises no error; keys under the prefix that are
not metadata documents — such as an orphan artifact without metadata —
contribute nothing. -/
theorem list_versions_by_metadata_presence
    (st : Store Nat) (c : String) (hc : c ≠ "")
    (hwf : ∀ k ∈ metaKeysUnder st c, ∃ d, alookup st k = some (.metaDoc d)) :
    ∃ l, get_complexity_versions st c = .ok l ∧
      List.Forall₂ (fun k d => alookup st k = some (Obj.metaDoc d))
        (metaKeysUnder st c) l := by
  obtain ⟨l, hread, hrel⟩ := readMetaDocs_of_wf st (metaKeysUnder st c) hwf
  refine ⟨l, ?_, hrel⟩
  simp only [get_complexity_versions, path_dir_eq hc]
  by_cases hemp : ((storeKeys st).filter
      (fun k => strStartsWith k (base_dir ++ "/" ++ label c))).isEmpty = true
  · rw [if_pos hemp]
    have hnil : (storeKeys st).filter
        (fun k => strStartsWith k (base_dir ++ "/" ++ label c)) = [] :=
      List.isEmpty_iff.mp hemp
    have hmk : metaKeysUnder st c = [] := by
      simp [metaKeysUnder, hnil]
    rw [hmk] at hrel
    rw [List.forall₂_nil_left_iff.mp hrel]
  · rw [if_neg hemp]
    have hmk : ((storeKeys st).filter
        (fun k => strStartsWith k (base_dir ++ "/" ++ label c))).filter
        (fun k => strEndsWith k "metadata.json") = metaKeysUnder st c := rfl
    rw [hmk, hread]
    rfl

/-- Witness for C9: on a store holding one complete version and one orphan
artifact, the listing returns exactly the one metadata document and no
error. -/
theorem list_versions_by_metadata_presence_witness :
    ∃ l, get_complexity_versions orphanStore "Alta" = .ok l ∧
      List.Forall₂ (fun k d => alookup orphanStore k = some (Obj.metaDoc d))
        (metaKeysUnder orphanStore "Alta") l :=
  list_versions_by_metadata_presence orphanStore "Alta" (by decide)
    (by
      intro k hk
      have hmk : metaKeysUnder orphanStore "Alta" =
          ["models/Alta/v_2024-11-26_18-30-00/metadata.json"] := rfl
      rw [hmk] at hk
      simp only [List.mem_singleton] at hk
      subst hk
      exact ⟨wMeta1, rfl⟩)

/-- Claim C10 (implicit): for a category string not in the mapping table the
label conversion used by key derivation returns it unchanged, the derived
keys are built from the raw string, and neither `get_model` nor a
well-formed `save_model` raises a `ValueError` for the unknown category. -/
theorem unknown_category_raw_keys
    (c : String) (hc : c ≠ "") (hun : alookup complexityMap c = none) :
    label c = c ∧
    (∀ v, v ≠ "" → path_model (some c) (some v) =
        .ok (base_dir ++ "/" ++ c ++ "/" ++ v ++ "/model.pkl")) ∧
    path_base_model (some c) = .ok (base_dir ++ "/" ++ c ++ ".pkl") ∧
    (∀ (st : Store Nat) (msg : String),
        get_model st c ≠ .error (.valueError msg)) ∧
    (∀ (st : Store Nat) (b : Nat) (md : MetaDoc) (v : String),
        md.complexity = some c → md.version = some v → v ≠ "" →
        ∃ st', save_model st b md = .ok (none, st')) := by
  have hlab : label c = c := by simp [label, to_label, hun]
  refine ⟨hlab, ?_, ?_, ?_, ?_⟩
  · intro v hv
    rw [path_model_eq hc hv]
    simp [modelKeyOf, hlab]
  · rw [path_base_model_eq hc]
    simp [baseModelKeyOf, hlab]
  · intro st msg hbad
    cases hav : get_active_version st c with
    | error e =>
      have he := get_active_version_error_shape hc hav
      simp only [get_model, hav, Except.error.injEq] at hbad
      rcases he with he | he <;> rw [hbad] at he <;> exact PyError.noConfusion he
    | ok v =>
      by_cases hf : falsyStr v = true
      · simp only [get_model, hav, hf, if_true] at hbad
        simp only [get_base_model, path_base_model_eq hc] at hbad
        exact load_model_path_not_valueError st (baseModelKeyOf c) msg hbad
      · have hf' : falsyStr v = false := by
          cases hfv : falsyStr v
          · rfl
          · exact absurd hfv hf
        obtain ⟨s, rfl, hs⟩ := falsyStr_false_iff.mp hf'
        simp only [get_model, hav, hf', Bool.false_eq_true, if_false,
          Option.getD_some] at hbad
        simp only [load_model, path_model_eq hc hs] at hbad
        exact load_model_path_not_valueError st (modelKeyOf c s) msg hbad
  · intro st b md v hmdc hmdv hv
    refine ⟨putKey (putKey st (modelKeyOf c v) (Obj.model b))
      (metadataKeyOf c v) (Obj.metaDoc md), ?_⟩
    simp only [save_model, hmdc, hmdv, path_model_eq hc hv,
      path_metadata_eq hc hv]

/-- Witness for C10, at the unregistered category `Intermedio`. -/
theorem unknown_category_raw_keys_witness :
    label "Intermedio" = "Intermedio" ∧
    path_base_model (some "Intermedio") =
      .ok (base_dir ++ "/" ++ "Intermedio" ++ ".pkl") ∧
    get_model regOnlyStore "Intermedio" ≠
      .error (.valueError "Complexity not set") ∧
    ∃ st', save_model regOnlyStore 1
      { version := some "v_1", complexity := some "Intermedio", payload := 0 }
        = .ok (none, st') := by
  have h := unknown_category_raw_keys "Intermedio" (by decide) (by decide)
  exact ⟨h.1, h.2.2.1, h.2.2.2.1 regOnlyStore "Complexity not set",
    h.2.2.2.2 regOnlyStore 1
      { version := some "v_1", complexity := some "Intermedio", payload := 0 }
      "v_1" rfl rfl (by decide)⟩

end PredictorModel
